import Mathlib

/-!
Shallow embedding of the conversation view component of the `gpt` chat
client (the `Chat` view in `src/unnamed/part_000`), together with theorems
checking the specification's claims about it.

The component's store helpers (`addChat`, `updateChat`, `updateChatSome`,
`getChatByUuidAndIndex` from the `useChat` hook) and the locale helper `t`
are part of this repository but not under `src/`; they are modelled from
the spec, as marked in their doc comments.  Everything else is translated
directly from the component source.  All operations in the component use
the single route `uuid`, so the store is modelled as the one transcript
list for that uuid.
-/

namespace GptChat

/-- Continuation metadata: both `Chat.ConversationOptions` (stored on a
response message) and `Chat.ConversationRequest` (sent with a request) hold
an optional `conversationId` and an optional `parentMessageId`; `none`
stands for a missing / `undefined` field. -/
structure ConvOptions where
  conversationId : Option String
  parentMessageId : Option String
  deriving Repr, DecidableEq

/-- The empty object `{}` used to initialise `options`. -/
def emptyConv : ConvOptions := { conversationId := none, parentMessageId := none }

/-- The `requestOptions` recorded on a transcript message: the prompt and an
optional copy of the request options (`null` on the user's own message). -/
structure ReqOptions where
  prompt : String
  options : Option ConvOptions
  deriving Repr, DecidableEq

/-- One record of the transcript (`Chat.Chat`): text, timestamp, role flag
(`inversion`), error flag, loading flag and optional continuation
metadata. -/
structure ChatMessage where
  dateTime : String
  text : String
  inversion : Bool
  error : Bool
  loading : Bool
  conversationOptions : Option ConvOptions
  requestOptions : ReqOptions
  deriving Repr, DecidableEq

/-- Modelled from the spec: `addChat` of the `useChat` hook is not under
`src/`; the spec describes the transcript as "the ordered list of messages
shown in the chat view" with "create-on-send", so adding a chat appends the
record to the list. -/
def addChat (msgs : List ChatMessage) (m : ChatMessage) : List ChatMessage :=
  msgs ++ [m]

/-- Modelled from the spec: `updateChat` of the `useChat` hook is not under
`src/`; the spec gives "index-based addressing" and "mutate-on-stream", so
updating replaces the record at the index. -/
def updateChat (msgs : List ChatMessage) (idx : Nat) (m : ChatMessage) :
    List ChatMessage :=
  msgs.set idx m

/-- A partial record for `updateChatSome`: `none` keeps the field of the
existing record. -/
structure ChatPatch where
  dateTime : Option String
  text : Option String
  inversion : Option Bool
  error : Option Bool
  loading : Option Bool
  conversationOptions : Option (Option ConvOptions)
  requestOptions : Option ReqOptions
  deriving Repr, DecidableEq

/-- The patch that changes nothing. -/
def noPatch : ChatPatch :=
  { dateTime := none, text := none, inversion := none, error := none
    loading := none, conversationOptions := none, requestOptions := none }

/-- Merge a partial record over an existing record, field by field. -/
def applyPatch (m : ChatMessage) (p : ChatPatch) : ChatMessage :=
  { dateTime := p.dateTime.getD m.dateTime
    text := p.text.getD m.text
    inversion := p.inversion.getD m.inversion
    error := p.error.getD m.error
    loading := p.loading.getD m.loading
    conversationOptions := p.conversationOptions.getD m.conversationOptions
    requestOptions := p.requestOptions.getD m.requestOptions }

/-- Modelled from the spec: `updateChatSome` of the `useChat` hook is not
under `src/`; it merges the given partial record into the record at the
index ("mutate-on-stream" with "index-based addressing"). -/
def updateChatSome (msgs : List ChatMessage) (idx : Nat) (p : ChatPatch) :
    List ChatMessage :=
  match msgs[idx]? with
  | some m => msgs.set idx (applyPatch m p)
  | none => msgs

/-- Modelled from the spec: `getChatByUuidAndIndex` of the `useChat` hook is
not under `src/`; with "index-based addressing" it returns the record at the
index, or `undefined` when there is none. -/
def getChatByUuidAndIndex (msgs : List ChatMessage) (idx : Nat) :
    Option ChatMessage :=
  msgs[idx]?

/-! ## The streaming chunk extraction of `onDownloadProgress`

The response buffer is modelled as a list of characters (JS strings are
indexed by position).  `responseText.lastIndexOf('\n', responseText.length - 2)`
searches for a newline backwards from position `length - 2`, where a
negative start position is clamped to `0`; `substring(lastIndex)` is the
suffix from that index. -/

/-- The largest index `i < min (stop + 1) s.length` with `s[i] = '\n'`:
JS `lastIndexOf('\n', stop)` for a clamped, in-range `stop`. -/
def newlineIdxUpTo (s : List Char) (stop : Nat) : Option Nat :=
  (((List.range (min (stop + 1) s.length)).filter
      (fun i => s.getD i ' ' == '\n'))).getLast?

/-- The text handed to `JSON.parse` by `onDownloadProgress`, translated from
the component: `lastIndex = responseText.lastIndexOf('\n', responseText.length - 2)`
(with JS clamping a negative start position to `0`), then the whole buffer
when `lastIndex` is `-1` and `responseText.substring(lastIndex)` otherwise. -/
def extractChunk (s : List Char) : List Char :=
  match newlineIdxUpTo s (s.length - 2) with
  | some i => s.drop i
  | none => s

/-- The chunk as the spec's sentence describes it: the suffix of the buffer
starting at the last newline that occurs strictly before the buffer's final
character, or the whole buffer when no such newline exists. -/
def extractChunkSpec (s : List Char) : List Char :=
  match (((List.range (s.length - 1)).filter
      (fun i => s.getD i ' ' == '\n'))).getLast? with
  | some i => s.drop i
  | none => s

theorem extractChunk_eq_spec (s : List Char) :
    extractChunk s = extractChunkSpec s := by
  match s with
  | [] => rfl
  | [c] =>
    by_cases h : c = '\n'
    · subst h; rfl
    · simp only [extractChunk, extractChunkSpec, newlineIdxUpTo]
      have hc : ([c][(0 : Nat)]?.getD ' ' == '\n') = false := by
        simp [h]
      have hr : (List.range 1).reverse = [(0 : Nat)] := by decide
      have hcc : (c == '\n') = false := beq_eq_false_iff_ne.mpr h
      simp [hr, List.find?, hc, hcc]
  | a :: b :: t =>
    have h : min ((a :: b :: t).length - 2 + 1) (a :: b :: t).length =
        (a :: b :: t).length - 1 := by
      simp only [List.length_cons]
      omega
    simp only [extractChunk, extractChunkSpec, newlineIdxUpTo, h]

/-! ## The streaming handler -/

/-- The fields of one decoded streaming chunk that the handler reads:
`data.text`, `data.conversationId`, `data.id` and
`data.detail.choices[0].finish_reason`; `none` stands for a missing field
(an access path that is `undefined` or throws inside the handler's `try`). -/
structure ChunkData where
  text : Option String
  conversationId : Option String
  id : Option String
  finishReason : Option String
  deriving Repr, DecidableEq

/-- JS string concatenation `lastText + x`: `lastText` starts as `''` but
may have become `undefined` (after `lastText = data.text` with a missing
`text` field), in which case JS coerces it to the string "undefined". -/
def jsConcat (a : Option String) (b : String) : String :=
  match a with
  | some s => s ++ b
  | none => "undefined" ++ b

/-- The mutable context of one `fetchChatAPIOnce` loop: the transcript, the
accumulator `lastText`, the mutated request `options`, and the (clearable)
prompt `message`. -/
structure FetchState where
  messages : List ChatMessage
  lastText : Option String
  options : ConvOptions
  message : String
  deriving Repr, DecidableEq

/-- The body of `onDownloadProgress`, writing at index `idx`, shared by
`onConversation` (where `idx` is the last index, recomputed on each call)
and `onRegenerate` (fixed `idx`).  `parse` stands for `JSON.parse`
restricted to the fields the handler reads, returning `none` when parsing
throws.  Returns the new context and whether `fetchChatAPIOnce` was
re-invoked (the long-reply continuation). -/
def onDownloadProgressAt (openLongReply : Bool)
    (parse : List Char → Option ChunkData) (now : String) (idx : Nat)
    (st : FetchState) (responseText : List Char) : FetchState × Bool :=
  let chunk := extractChunk responseText
  match parse chunk with
  | none => (st, false)
  | some data =>
    let msgs := updateChat st.messages idx
      { dateTime := now
        text := jsConcat st.lastText (data.text.getD "")
        inversion := false
        error := false
        loading := true
        conversationOptions :=
          some { conversationId := data.conversationId, parentMessageId := data.id }
        requestOptions := { prompt := st.message, options := some st.options } }
    if openLongReply && data.finishReason == some "length" then
      ({ messages := msgs
         lastText := data.text
         options := { conversationId := st.options.conversationId
                      parentMessageId := data.id }
         message := "" }, true)
    else
      ({ st with messages := msgs }, false)

/-- The `onDownloadProgress` handler of `onConversation`: it writes at
`dataSources.value.length - 1`, the last index of the transcript. -/
def onConversationProgress (openLongReply : Bool)
    (parse : List Char → Option ChunkData) (now : String)
    (st : FetchState) (responseText : List Char) : FetchState × Bool :=
  onDownloadProgressAt openLongReply parse now (st.messages.length - 1) st responseText

/-! ## Component state and the synchronous phases of the actions -/

/-- The reactive state of the view that the claims are about: the transcript
(`dataSources` for the route's uuid), the input `prompt`, the `loading`
flag, the module-level `controller` (abort controllers are identified by a
generation number, bumped whenever `new AbortController()` is assigned), and
the `usingContext` toggle. -/
structure ChatState where
  messages : List ChatMessage
  prompt : String
  loading : Bool
  controllerGen : Nat
  usingContext : Bool
  deriving Repr, DecidableEq

/-- A request handed to `fetchChatAPIProcess`: the prompt, the options and
the generation of the controller whose `signal` was passed. -/
structure IssuedRequest where
  prompt : String
  options : ConvOptions
  signalGen : Nat
  deriving Repr, DecidableEq

/-- JS `message.trim()`: the string with leading and trailing whitespace
removed. -/
def jsTrim (s : String) : String :=
  String.mk (((s.data.dropWhile Char.isWhitespace).reverse.dropWhile
    Char.isWhitespace).reverse)

/-- The `conversationList` computed property: the transcript filtered to the
records with `!item.inversion && !!item.conversationOptions`. -/
def conversationListOf (msgs : List ChatMessage) : List ChatMessage :=
  msgs.filter (fun m => !m.inversion && m.conversationOptions.isSome)

/-- `conversationList.value[conversationList.value.length - 1]?.conversationOptions`:
the last filtered record's options, or `undefined` when the list is empty. -/
def lastContextOf (msgs : List ChatMessage) : Option ConvOptions :=
  match (conversationListOf msgs).getLast? with
  | some m => m.conversationOptions
  | none => none

/-- The synchronous part of `onConversation` up to the
`fetchChatAPIProcess` call: the `loading` and empty-prompt guards, the fresh
`AbortController`, the `addChat` of the user's message, setting `loading`,
clearing the prompt, the context-option selection, and the `addChat` of the
placeholder response.  Returns the state at the moment the request is
issued together with the request, or `none` when a guard returned early. -/
def onConversationStart (now : String) (st : ChatState) :
    ChatState × Option IssuedRequest :=
  let message := st.prompt
  if st.loading then (st, none)
  else if message == "" || jsTrim message == "" then (st, none)
  else
    let gen := st.controllerGen + 1
    let msgs1 := addChat st.messages
      { dateTime := now, text := message, inversion := true, error := false
        loading := false, conversationOptions := none
        requestOptions := { prompt := message, options := none } }
    let options : ConvOptions :=
      match lastContextOf msgs1 with
      | some ctx => if st.usingContext then ctx else emptyConv
      | none => emptyConv
    let msgs2 := addChat msgs1
      { dateTime := now, text := "思考中", inversion := false, error := false
        loading := true, conversationOptions := none
        requestOptions := { prompt := message, options := some options } }
    ({ messages := msgs2, prompt := "", loading := true, controllerGen := gen
       usingContext := st.usingContext },
     some { prompt := message, options := options, signalGen := gen })

/-- The synchronous part of `onRegenerate` up to the `fetchChatAPIProcess`
call: the `loading` guard, the fresh `AbortController`, reading
`requestOptions` of the record at `index` (destructuring throws when the
index is out of range, leaving only the replaced controller), setting
`loading`, and the `updateChat` resetting the record. -/
def onRegenerateStart (now : String) (idx : Nat) (st : ChatState) :
    ChatState × Option IssuedRequest :=
  if st.loading then (st, none)
  else
    let gen := st.controllerGen + 1
    match st.messages[idx]? with
    | none => ({ st with controllerGen := gen }, none)
    | some m =>
      let message := m.requestOptions.prompt
      let options := m.requestOptions.options.getD emptyConv
      ({ st with
         messages := updateChat st.messages idx
           { dateTime := now, text := "", inversion := false, error := false
             loading := true, conversationOptions := none
             requestOptions := { prompt := message, options := some options } }
         loading := true
         controllerGen := gen },
       some { prompt := message, options := options, signalGen := gen })

/-- `handleStop`: when loading, abort the current controller and clear the
flag.  The second component is the generation of the aborted controller,
`none` when nothing was done. -/
def handleStop (st : ChatState) : ChatState × Option Nat :=
  if st.loading then ({ st with loading := false }, some st.controllerGen)
  else (st, none)

/-- Modelled from the spec: the locale fallback `t('common.wrong')` used for
an error without a message (the locales module is not under `src/`; its
value is irrelevant to the claims). -/
def tCommonWrong : String := "common.wrong"

/-- The `catch` branch of `onConversation` together with the `finally`
clearing the loading flag.  `errMsg` is `error.message` (`none` when
absent); `message` and `options` are the captured locals at throw time.
The second component records whether the request was re-issued — the branch
issues no request. -/
def onConversationCatch (now : String) (errMsg : Option String)
    (message : String) (options : ConvOptions) (st : ChatState) :
    ChatState × Bool :=
  let errorMessage := errMsg.getD tCommonWrong
  let idx := st.messages.length - 1
  if errMsg == some "canceled" then
    ({ st with
       messages := updateChatSome st.messages idx
         { noPatch with loading := some false }
       loading := false }, false)
  else
    match getChatByUuidAndIndex st.messages idx with
    | some cur =>
      if cur.text != "" then
        ({ st with
           messages := updateChatSome st.messages idx
             { noPatch with
               text := some (cur.text ++ "\n[" ++ errorMessage ++ "]")
               error := some false, loading := some false }
           loading := false }, false)
      else
        ({ st with
           messages := updateChat st.messages idx
             { dateTime := now, text := errorMessage, inversion := false
               error := true, loading := false, conversationOptions := none
               requestOptions := { prompt := message, options := some options } }
           loading := false }, false)
    | none =>
      ({ st with
         messages := updateChat st.messages idx
           { dateTime := now, text := errorMessage, inversion := false
             error := true, loading := false, conversationOptions := none
             requestOptions := { prompt := message, options := some options } }
         loading := false }, false)

/-- The `catch` branch of `onRegenerate` together with the `finally`
clearing the loading flag; it writes at the captured `index`. -/
def onRegenerateCatch (now : String) (errMsg : Option String) (idx : Nat)
    (message : String) (options : ConvOptions) (st : ChatState) :
    ChatState × Bool :=
  if errMsg == some "canceled" then
    ({ st with
       messages := updateChatSome st.messages idx
         { noPatch with loading := some false }
       loading := false }, false)
  else
    ({ st with
       messages := updateChat st.messages idx
         { dateTime := now, text := errMsg.getD tCommonWrong, inversion := false
           error := true, loading := false, conversationOptions := none
           requestOptions := { prompt := message, options := some options } }
       loading := false }, false)

/-- `handleExport`: guarded by `loading`; when it proceeds it only opens the
confirmation dialog (the export runs in the dialog callback and touches no
store state).  The Bool records whether the dialog was opened. -/
def handleExport (st : ChatState) : ChatState × Bool :=
  if st.loading then (st, false) else (st, true)

/-- `handleDelete`: guarded by `loading`; when it proceeds it only opens the
confirmation dialog for the record at the given index. -/
def handleDelete (_idx : Nat) (st : ChatState) : ChatState × Bool :=
  if st.loading then (st, false) else (st, true)

/-- `handleClear`: guarded by `loading`; when it proceeds it only opens the
confirmation dialog. -/
def handleClear (st : ChatState) : ChatState × Bool :=
  if st.loading then (st, false) else (st, true)

/-- The `buttonDisabled` computed property:
`loading.value || !prompt.value || prompt.value.trim() === ''`. -/
def buttonDisabled (st : ChatState) : Bool :=
  st.loading || st.prompt == "" || jsTrim st.prompt == ""

/-! ## Helper lemmas -/

theorem length_updateChatSome (msgs : List ChatMessage) (idx : Nat)
    (p : ChatPatch) : (updateChatSome msgs idx p).length = msgs.length := by
  unfold updateChatSome
  cases h : msgs[idx]? <;> simp

theorem getElem?_updateChatSome_ne (msgs : List ChatMessage) (idx : Nat)
    (p : ChatPatch) (i : Nat) (h : i ≠ idx) :
    (updateChatSome msgs idx p)[i]? = msgs[i]? := by
  unfold updateChatSome
  cases hm : msgs[idx]? with
  | none => rfl
  | some m => exact List.getElem?_set_ne (Ne.symm h)

theorem getElem?_updateChatSome_self (msgs : List ChatMessage) (idx : Nat)
    (p : ChatPatch) (m : ChatMessage) (h : msgs[idx]? = some m) :
    (updateChatSome msgs idx p)[idx]? = some (applyPatch m p) := by
  have hlt : idx < msgs.length := by
    rw [List.getElem?_eq_some] at h
    exact h.1
  unfold updateChatSome
  rw [h]
  exact List.getElem?_set_eq_of_lt _ hlt

theorem map_getElem?_updateChatSome {α : Type} (msgs : List ChatMessage)
    (idx : Nat) (p : ChatPatch) (f : ChatMessage → α)
    (hf : ∀ m, f (applyPatch m p) = f m) (i : Nat) :
    ((updateChatSome msgs idx p)[i]?).map f = (msgs[i]?).map f := by
  by_cases h : i = idx
  · subst h
    cases hm : msgs[i]? with
    | none => simp [updateChatSome, hm]
    | some m =>
      rw [getElem?_updateChatSome_self msgs i p m hm]
      simp [hf]
  · rw [getElem?_updateChatSome_ne msgs idx p i h]

theorem conversationListOf_append_inversion (msgs : List ChatMessage)
    (m : ChatMessage) (h : m.inversion = true) :
    conversationListOf (msgs ++ [m]) = conversationListOf msgs := by
  unfold conversationListOf
  rw [List.filter_append]
  simp [h]

/-! ## Sample values for witnesses -/

/-- A sample transcript record. -/
def sampleMsg : ChatMessage :=
  { dateTime := "d0", text := "old", inversion := false, error := false
    loading := true, conversationOptions := none
    requestOptions := { prompt := "p", options := none } }

/-- A sample decoded chunk whose finish reason is the truncation marker. -/
def chunkA : ChunkData :=
  { text := some "hello", conversationId := some "c1", id := some "m1"
    finishReason := some "length" }

/-- A sample fetch context holding one transcript record. -/
def fetchA : FetchState :=
  { messages := [sampleMsg], lastText := some "A", options := emptyConv
    message := "p" }

/-- A sample idle component state. -/
def stateA : ChatState :=
  { messages := [sampleMsg], prompt := "hi", loading := false
    controllerGen := 3, usingContext := true }

/-- A sample component state with a request in flight. -/
def stateLoading : ChatState :=
  { messages := [sampleMsg], prompt := "hi", loading := true
    controllerGen := 3, usingContext := true }

/-- A sample idle state whose prompt is whitespace-only. -/
def stateBlank : ChatState :=
  { messages := [], prompt := " ", loading := false, controllerGen := 0
    usingContext := false }

/-! ## Claims -/

/-- C1: for every response buffer delivered to the download-progress
handler, the text passed to the JSON decoder is the suffix of the buffer
starting at the last newline strictly before the buffer's final character,
or the whole buffer when no such newline exists; a suffix that fails to
parse is silently ignored (the handler changes nothing and does not
re-issue the request). -/
theorem c1_last_line_chunk :
    (∀ s : List Char, extractChunk s = extractChunkSpec s) ∧
    (∀ (olr : Bool) (parse : List Char → Option ChunkData) (now : String)
       (idx : Nat) (st : FetchState) (r : List Char),
       parse (extractChunk r) = none →
       onDownloadProgressAt olr parse now idx st r = (st, false)) := by
  constructor
  · exact extractChunk_eq_spec
  · intro olr parse now idx st r h
    simp [onDownloadProgressAt, h]

/-- Witness for C1 at a concrete buffer whose chunk fails to decode. -/
theorem c1_witness :
    (fun _ : List Char => (none : Option ChunkData)) (extractChunk "hi".data) =
      none ∧
    onDownloadProgressAt false (fun _ => none) "t0" 0
        { messages := [], lastText := some "", options := emptyConv
          message := "" } "hi".data =
      ({ messages := [], lastText := some "", options := emptyConv
         message := "" }, false) :=
  ⟨rfl, c1_last_line_chunk.2 false (fun _ => none) "t0" 0
    { messages := [], lastText := some "", options := emptyConv, message := "" }
    "hi".data rfl⟩

/-- C2: every successfully decoded chunk overwrites the message at the
streaming index — the last index of the transcript for `onConversation`,
the captured index for `onRegenerate`, both instances of the same handler
body at an arbitrary write index — with text equal to the accumulator
`lastText` concatenated with the chunk's `text` field (empty when absent)
and conversationOptions taken from the chunk's `conversationId` and `id`;
the written record does not depend on the text previously stored there, so
the last chunk wins. -/
theorem c2_last_chunk_wins (olr : Bool) (parse : List Char → Option ChunkData)
    (now : String) (idx : Nat) (st : FetchState) (r : List Char)
    (data : ChunkData) (hp : parse (extractChunk r) = some data) :
    ((onDownloadProgressAt olr parse now idx st r).1).messages =
      updateChat st.messages idx
        { dateTime := now
          text := jsConcat st.lastText (data.text.getD "")
          inversion := false, error := false, loading := true
          conversationOptions :=
            some { conversationId := data.conversationId
                   parentMessageId := data.id }
          requestOptions := { prompt := st.message
                              options := some st.options } } ∧
    onConversationProgress olr parse now st r =
      onDownloadProgressAt olr parse now (st.messages.length - 1) st r := by
  constructor
  · unfold onDownloadProgressAt
    simp only [hp]
    cases hcond : (olr && data.finishReason == some "length") <;> simp [hcond]
  · rfl

/-- A fetch context holding two transcript records, so that a regenerate
write index can differ from the last index. -/
def fetchTwo : FetchState :=
  { messages := [sampleMsg, sampleMsg], lastText := some "A"
    options := emptyConv, message := "p" }

/-- Witness for C2 at a concrete decoded chunk, written at index 0 of a
two-record transcript (a regenerate of a non-final message). -/
theorem c2_witness :
    (fun _ : List Char => some chunkA) (extractChunk "x".data) = some chunkA ∧
    ((onDownloadProgressAt false (fun _ => some chunkA) "t1" 0 fetchTwo
        "x".data).1).messages =
      updateChat fetchTwo.messages 0
        { dateTime := "t1"
          text := jsConcat fetchTwo.lastText (chunkA.text.getD "")
          inversion := false, error := false, loading := true
          conversationOptions :=
            some { conversationId := chunkA.conversationId
                   parentMessageId := chunkA.id }
          requestOptions := { prompt := fetchTwo.message
                              options := some fetchTwo.options } } :=
  ⟨rfl, (c2_last_chunk_wins false (fun _ => some chunkA) "t1" 0 fetchTwo
    "x".data chunkA rfl).1⟩

/-- C3: with the long-reply feature enabled and the chunk's finish reason
equal to 'length', the request is re-issued after setting the options'
parentMessageId to the chunk's id, the accumulator lastText to the chunk's
full text field, and the prompt message to the empty string; with any other
finish reason, or the feature disabled, no further request is issued. -/
theorem c3_long_reply_continuation (olr : Bool)
    (parse : List Char → Option ChunkData) (now : String) (idx : Nat)
    (st : FetchState) (r : List Char) (data : ChunkData)
    (hp : parse (extractChunk r) = some data) :
    (olr = true → data.finishReason = some "length" →
      onDownloadProgressAt olr parse now idx st r =
        ({ messages := updateChat st.messages idx
             { dateTime := now
               text := jsConcat st.lastText (data.text.getD "")
               inversion := false, error := false, loading := true
               conversationOptions :=
                 some { conversationId := data.conversationId
                        parentMessageId := data.id }
               requestOptions := { prompt := st.message
                                   options := some st.options } }
           lastText := data.text
           options := { conversationId := st.options.conversationId
                        parentMessageId := data.id }
           message := "" }, true)) ∧
    ((olr = false ∨ data.finishReason ≠ some "length") →
      (onDownloadProgressAt olr parse now idx st r).2 = false) := by
  constructor
  · intro h1 h2
    simp [onDownloadProgressAt, hp, h1, h2]
  · intro h
    rcases h with h | h
    · simp [onDownloadProgressAt, hp, h]
    · have hb : (data.finishReason == some "length") = false :=
        beq_eq_false_iff_ne.mpr h
      simp [onDownloadProgressAt, hp, hb]

/-- Witness for C3: a truncated chunk triggers the continuation. -/
theorem c3_witness :
    (fun _ : List Char => some chunkA) (extractChunk "x".data) = some chunkA ∧
    chunkA.finishReason = some "length" ∧
    (onDownloadProgressAt true (fun _ => some chunkA) "t1" 0 fetchA
      "x".data).2 = true := by
  refine ⟨rfl, rfl, ?_⟩
  rw [(c3_long_reply_continuation true (fun _ => some chunkA) "t1" 0 fetchA
    "x".data chunkA rfl).1 rfl rfl]

/-- C4: cancellation is a silent stop: when loading, `handleStop` aborts
the current controller and clears the loading flag; and a failure whose
message is 'canceled' only marks the pending message no-longer-loading —
the transcript keeps its length (no error entry), every message keeps its
text and error flag, and the last message is the old record with loading
cleared. -/
theorem c4_cancellation_silent (st st2 : ChatState) (now message : String)
    (options : ConvOptions) (hl : st.loading = true) :
    handleStop st = ({ st with loading := false }, some st.controllerGen) ∧
    ((onConversationCatch now (some "canceled") message options st2).2 = false ∧
     (onConversationCatch now (some "canceled") message options st2).1.loading
       = false ∧
     (onConversationCatch now (some "canceled") message options
       st2).1.messages.length = st2.messages.length ∧
     (∀ i : Nat, ((onConversationCatch now (some "canceled") message options
         st2).1.messages[i]?).map ChatMessage.text =
       (st2.messages[i]?).map ChatMessage.text) ∧
     (∀ i : Nat, ((onConversationCatch now (some "canceled") message options
         st2).1.messages[i]?).map ChatMessage.error =
       (st2.messages[i]?).map ChatMessage.error) ∧
     (∀ m, st2.messages[st2.messages.length - 1]? = some m →
       (onConversationCatch now (some "canceled") message options
           st2).1.messages[st2.messages.length - 1]? =
         some { m with loading := false })) := by
  constructor
  · simp [handleStop, hl]
  · have hc : onConversationCatch now (some "canceled") message options st2 =
        ({ st2 with
           messages := updateChatSome st2.messages (st2.messages.length - 1)
             { noPatch with loading := some false }
           loading := false }, false) := by
      simp [onConversationCatch]
    rw [hc]
    refine ⟨rfl, rfl, length_updateChatSome _ _ _, ?_, ?_, ?_⟩
    · exact map_getElem?_updateChatSome st2.messages _ _ ChatMessage.text
        (fun m => rfl)
    · exact map_getElem?_updateChatSome st2.messages _ _ ChatMessage.error
        (fun m => rfl)
    · intro m hm
      rw [getElem?_updateChatSome_self _ _ _ m hm]
      rfl

/-- Witness for C4: stopping a loading view, and a canceled error on a
concrete transcript. -/
theorem c4_witness :
    stateLoading.loading = true ∧
    handleStop stateLoading = ({ stateLoading with loading := false }, some 3) ∧
    (onConversationCatch "t1" (some "canceled") "p" emptyConv
      stateLoading).1.messages.length = 1 := by
  have h := c4_cancellation_silent stateLoading stateLoading "t1" "p"
    emptyConv rfl
  exact ⟨rfl, h.1, h.2.2.2.1⟩

/-- C5: every non-cancellation error is caught, rendered inline and no
retry is issued: in `onConversation`, with non-empty current text the
bracketed error message is appended on a new line, otherwise the record is
replaced by an error entry; `onRegenerate` replaces the record at its
index; in all cases the loading flag is cleared and no request is
re-issued. -/
theorem c5_error_inline (now : String) (errMsg : Option String)
    (message : String) (options : ConvOptions) (st : ChatState)
    (hne : errMsg ≠ some "canceled") :
    ((onConversationCatch now errMsg message options st).2 = false ∧
     (onConversationCatch now errMsg message options st).1.loading = false ∧
     (∀ cur, st.messages[st.messages.length - 1]? = some cur → cur.text ≠ "" →
        (onConversationCatch now errMsg message options st).1.messages =
          updateChatSome st.messages (st.messages.length - 1)
            { noPatch with
              text := some (cur.text ++ "\n[" ++ errMsg.getD tCommonWrong ++ "]")
              error := some false, loading := some false }) ∧
     (∀ cur, st.messages[st.messages.length - 1]? = some cur → cur.text = "" →
        (onConversationCatch now errMsg message options st).1.messages =
          updateChat st.messages (st.messages.length - 1)
            { dateTime := now, text := errMsg.getD tCommonWrong
              inversion := false, error := true, loading := false
              conversationOptions := none
              requestOptions := { prompt := message
                                  options := some options } })) ∧
    (∀ (idx : Nat) (st2 : ChatState),
       (onRegenerateCatch now errMsg idx message options st2).2 = false ∧
       (onRegenerateCatch now errMsg idx message options st2).1.loading
         = false ∧
       (onRegenerateCatch now errMsg idx message options st2).1.messages =
         updateChat st2.messages idx
           { dateTime := now, text := errMsg.getD tCommonWrong
             inversion := false, error := true, loading := false
             conversationOptions := none
             requestOptions := { prompt := message
                                 options := some options } }) := by
  have hb : (errMsg == some "canceled") = false := beq_eq_false_iff_ne.mpr hne
  constructor
  · refine ⟨?_, ?_, ?_, ?_⟩
    · unfold onConversationCatch
      simp only [hb, Bool.false_eq_true, if_false]
      cases hcur : getChatByUuidAndIndex st.messages (st.messages.length - 1)
        with
      | none => rfl
      | some cur =>
        by_cases ht : cur.text = "" <;> simp [ht]
    · unfold onConversationCatch
      simp only [hb, Bool.false_eq_true, if_false]
      cases hcur : getChatByUuidAndIndex st.messages (st.messages.length - 1)
        with
      | none => rfl
      | some cur =>
        by_cases ht : cur.text = "" <;> simp [ht]
    · intro cur hcur htext
      have ht : (cur.text != "") = true := bne_iff_ne.mpr htext
      unfold onConversationCatch
      simp only [hb, Bool.false_eq_true, if_false, getChatByUuidAndIndex, hcur,
        ht, if_true]
    · intro cur hcur htext
      have ht : (cur.text != "") = false := by
        simp [bne, htext]
      unfold onConversationCatch
      simp only [hb, Bool.false_eq_true, if_false, getChatByUuidAndIndex, hcur,
        ht]
  · intro idx st2
    refine ⟨?_, ?_, ?_⟩ <;> simp [onRegenerateCatch, hb]

/-- Witness for C5: a concrete 'boom' error appended to a record with
non-empty text. -/
theorem c5_witness :
    (some "boom" ≠ some "canceled") ∧
    stateA.messages[stateA.messages.length - 1]? = some sampleMsg ∧
    sampleMsg.text ≠ "" ∧
    (onConversationCatch "t1" (some "boom") "p" emptyConv stateA).2 = false ∧
    (onConversationCatch "t1" (some "boom") "p" emptyConv stateA).1.messages =
      updateChatSome stateA.messages (stateA.messages.length - 1)
        { noPatch with
          text := some (sampleMsg.text ++ "\n[" ++
            (some "boom").getD tCommonWrong ++ "]")
          error := some false, loading := some false } := by
  have h := c5_error_inline "t1" (some "boom") "p" emptyConv stateA (by decide)
  exact ⟨by decide, rfl, by decide, h.1.1, h.1.2.2.1 sampleMsg rfl (by decide)⟩


/-- C6: an empty or whitespace-only prompt is a no-op — `onConversation`
returns with the state unchanged and no request issued — and the send
button is disabled exactly when loading or the prompt trims to empty. -/
theorem c6_empty_prompt_noop (now : String) (st : ChatState) :
    (jsTrim st.prompt = "" → onConversationStart now st = (st, none)) ∧
    (buttonDisabled st = true ↔ (st.loading = true ∨ jsTrim st.prompt = "")) := by
  constructor
  · intro h
    unfold onConversationStart
    by_cases hl : st.loading
    · simp [hl]
    · have hb : (jsTrim st.prompt == "") = true := beq_iff_eq.mpr h
      simp [hl, hb]
  · unfold buttonDisabled
    simp only [Bool.or_eq_true, beq_iff_eq]
    constructor
    · intro h
      rcases h with (h | h) | h
      · exact Or.inl h
      · exact Or.inr (by rw [h]; rfl)
      · exact Or.inr h
    · intro h
      rcases h with h | h
      · exact Or.inl (Or.inl h)
      · exact Or.inr h

/-- Witness for C6: a whitespace-only prompt no-ops and disables the
button. -/
theorem c6_witness :
    jsTrim stateBlank.prompt = "" ∧
    onConversationStart "t1" stateBlank = (stateBlank, none) ∧
    buttonDisabled stateBlank = true := by
  have h := c6_empty_prompt_noop "t1" stateBlank
  exact ⟨by decide, h.1 (by decide), h.2.mpr (Or.inr (by decide))⟩

/-! ## Evaluation lemmas for the send setup -/

/-- The user's record added by a send that passes the guards. -/
def userRecOf (now : String) (st : ChatState) : ChatMessage :=
  { dateTime := now, text := st.prompt, inversion := true, error := false
    loading := false, conversationOptions := none
    requestOptions := { prompt := st.prompt, options := none } }

/-- The options chosen for the send: the last context if present and the
toggle is on, empty otherwise. -/
def optionsChosen (now : String) (st : ChatState) : ConvOptions :=
  match lastContextOf (addChat st.messages (userRecOf now st)) with
  | some ctx => if st.usingContext then ctx else emptyConv
  | none => emptyConv

/-- The placeholder record added by a send that passes the guards. -/
def thinkRecOf (now : String) (st : ChatState) : ChatMessage :=
  { dateTime := now, text := "思考中", inversion := false, error := false
    loading := true, conversationOptions := none
    requestOptions := { prompt := st.prompt
                        options := some (optionsChosen now st) } }

theorem onConversationStart_eq (now : String) (st : ChatState)
    (hl : st.loading = false) (h1 : (st.prompt == "") = false)
    (h2 : (jsTrim st.prompt == "") = false) :
    onConversationStart now st =
      ({ messages := addChat (addChat st.messages (userRecOf now st))
           (thinkRecOf now st)
         prompt := "", loading := true
         controllerGen := st.controllerGen + 1
         usingContext := st.usingContext },
       some { prompt := st.prompt, options := optionsChosen now st
              signalGen := st.controllerGen + 1 }) := by
  unfold onConversationStart thinkRecOf optionsChosen userRecOf
  simp [hl, h1, h2]

theorem onRegenerateStart_eq (now : String) (idx : Nat) (st : ChatState)
    (m : ChatMessage) (hl : st.loading = false)
    (hm : st.messages[idx]? = some m) :
    onRegenerateStart now idx st =
      ({ st with
         messages := updateChat st.messages idx
           { dateTime := now, text := "", inversion := false, error := false
             loading := true, conversationOptions := none
             requestOptions :=
               { prompt := m.requestOptions.prompt
                 options := some (m.requestOptions.options.getD emptyConv) } }
         loading := true
         controllerGen := st.controllerGen + 1 },
       some { prompt := m.requestOptions.prompt
              options := m.requestOptions.options.getD emptyConv
              signalGen := st.controllerGen + 1 }) := by
  unfold onRegenerateStart
  simp [hl, hm]

theorem lastContextOf_addChat_inversion (msgs : List ChatMessage)
    (m : ChatMessage) (h : m.inversion = true) :
    lastContextOf (addChat msgs m) = lastContextOf msgs := by
  unfold lastContextOf addChat
  rw [conversationListOf_append_inversion msgs m h]

/-- Either branch of the handler leaves the transcript alone or writes one
record at the given index. -/
theorem onDownloadProgressAt_messages (olr : Bool)
    (parse : List Char → Option ChunkData) (now : String) (idx : Nat)
    (st : FetchState) (r : List Char) :
    (onDownloadProgressAt olr parse now idx st r).1.messages = st.messages ∨
    ∃ rec, (onDownloadProgressAt olr parse now idx st r).1.messages =
      st.messages.set idx rec := by
  simp only [onDownloadProgressAt]
  cases hp2 : parse (extractChunk r) with
  | none => exact Or.inl rfl
  | some data =>
    simp only [hp2]
    by_cases hq : (olr && data.finishReason == some "length") = true
    · simp only [hq, if_true]
      exact Or.inr ⟨_, rfl⟩
    · rw [if_neg hq]
      exact Or.inr ⟨_, rfl⟩

/-- C7: both `onConversation` and `onRegenerate` assign a fresh
AbortController to the module-level variable before issuing their request
and pass exactly that controller's signal with it. -/
theorem c7_fresh_controller (now : String) (st : ChatState)
    (hl : st.loading = false) (hp : jsTrim st.prompt ≠ "") :
    (∃ req, (onConversationStart now st).2 = some req ∧
       (onConversationStart now st).1.controllerGen = st.controllerGen + 1 ∧
       req.signalGen = st.controllerGen + 1) ∧
    (∀ (idx : Nat) (st2 : ChatState) (m : ChatMessage), st2.loading = false →
       st2.messages[idx]? = some m →
       ∃ req, (onRegenerateStart now idx st2).2 = some req ∧
         (onRegenerateStart now idx st2).1.controllerGen =
           st2.controllerGen + 1 ∧
         req.signalGen = st2.controllerGen + 1) := by
  have hpe : st.prompt ≠ "" := fun h => hp (by rw [h]; rfl)
  have h1 : (st.prompt == "") = false := beq_eq_false_iff_ne.mpr hpe
  have h2 : (jsTrim st.prompt == "") = false := beq_eq_false_iff_ne.mpr hp
  constructor
  · rw [onConversationStart_eq now st hl h1 h2]
    exact ⟨_, rfl, rfl, rfl⟩
  · intro idx st2 m hl2 hm
    rw [onRegenerateStart_eq now idx st2 m hl2 hm]
    exact ⟨_, rfl, rfl, rfl⟩

/-- Witness for C7: a concrete send bumps the controller generation. -/
theorem c7_witness :
    stateA.loading = false ∧ jsTrim stateA.prompt ≠ "" ∧
    (onConversationStart "t1" stateA).1.controllerGen = 4 := by
  obtain ⟨req, _, hg, _⟩ :=
    (c7_fresh_controller "t1" stateA rfl (by decide)).1
  refine ⟨rfl, by decide, ?_⟩
  rw [hg]
  rfl

/-- C8: a send past the guards appends exactly two messages before any
network activity — the user's message (inversion, the submitted text) then
the loading placeholder with text '思考中' — and every streaming update
preserves the transcript length and touches no index but the last. -/
theorem c8_two_messages_then_stream (now : String) (st : ChatState)
    (hl : st.loading = false) (hp : jsTrim st.prompt ≠ "") :
    (∃ opts, (onConversationStart now st).1.messages =
       st.messages ++
         [{ dateTime := now, text := st.prompt, inversion := true
            error := false, loading := false, conversationOptions := none
            requestOptions := { prompt := st.prompt, options := none } },
          { dateTime := now, text := "思考中", inversion := false
            error := false, loading := true, conversationOptions := none
            requestOptions := { prompt := st.prompt
                                options := some opts } }]) ∧
    (∀ (olr : Bool) (parse : List Char → Option ChunkData) (now2 : String)
       (fst : FetchState) (r : List Char),
       ((onConversationProgress olr parse now2 fst r).1.messages.length =
          fst.messages.length) ∧
       (∀ i : Nat, i ≠ fst.messages.length - 1 →
          (onConversationProgress olr parse now2 fst r).1.messages[i]? =
            fst.messages[i]?)) := by
  have hpe : st.prompt ≠ "" := fun h => hp (by rw [h]; rfl)
  have h1 : (st.prompt == "") = false := beq_eq_false_iff_ne.mpr hpe
  have h2 : (jsTrim st.prompt == "") = false := beq_eq_false_iff_ne.mpr hp
  constructor
  · refine ⟨optionsChosen now st, ?_⟩
    rw [onConversationStart_eq now st hl h1 h2]
    simp [addChat, userRecOf, thinkRecOf]
  · intro olr parse now2 fst r
    have h := onDownloadProgressAt_messages olr parse now2
      (fst.messages.length - 1) fst r
    unfold onConversationProgress
    rcases h with h | ⟨rec, h⟩
    · rw [h]
      exact ⟨rfl, fun i _ => rfl⟩
    · rw [h]
      exact ⟨List.length_set fst.messages _ _,
        fun i hi => List.getElem?_set_ne (Ne.symm hi)⟩

/-- Witness for C8: a concrete send appends the two records. -/
theorem c8_witness :
    stateA.loading = false ∧ jsTrim stateA.prompt ≠ "" ∧
    (∃ opts, (onConversationStart "t1" stateA).1.messages =
       stateA.messages ++
         [{ dateTime := "t1", text := stateA.prompt, inversion := true
            error := false, loading := false, conversationOptions := none
            requestOptions := { prompt := stateA.prompt, options := none } },
          { dateTime := "t1", text := "思考中", inversion := false
            error := false, loading := true, conversationOptions := none
            requestOptions := { prompt := stateA.prompt
                                options := some opts } }]) :=
  ⟨rfl, by decide,
   (c8_two_messages_then_stream "t1" stateA rfl (by decide)).1⟩

/-- C9: while loading, every action but stop — a new send, regenerate,
delete, clear, export — returns immediately with the state unchanged and
no request issued or dialog opened. -/
theorem c9_loading_guards (now : String) (st : ChatState) (idx : Nat)
    (hl : st.loading = true) :
    onConversationStart now st = (st, none) ∧
    onRegenerateStart now idx st = (st, none) ∧
    handleDelete idx st = (st, false) ∧
    handleClear st = (st, false) ∧
    handleExport st = (st, false) := by
  unfold onConversationStart onRegenerateStart handleDelete handleClear
    handleExport
  simp [hl]

/-- Witness for C9 on a concrete loading state. -/
theorem c9_witness :
    stateLoading.loading = true ∧
    onConversationStart "t1" stateLoading = (stateLoading, none) ∧
    onRegenerateStart "t1" 0 stateLoading = (stateLoading, none) ∧
    handleClear stateLoading = (stateLoading, false) := by
  have h := c9_loading_guards "t1" stateLoading 0 rfl
  exact ⟨rfl, h.1, h.2.1, h.2.2.2.1⟩

/-- C10: the issued send carries a copy of the most recent non-inversion
message's conversationOptions exactly when the context toggle is on and
such a message exists; otherwise the request options start empty. -/
theorem c10_context_options (now : String) (st : ChatState)
    (hl : st.loading = false) (hp : jsTrim st.prompt ≠ "") :
    ∃ req, (onConversationStart now st).2 = some req ∧
      (∀ m ctx, st.usingContext = true →
         (conversationListOf st.messages).getLast? = some m →
         m.conversationOptions = some ctx → req.options = ctx) ∧
      (st.usingContext = false → req.options = emptyConv) ∧
      ((conversationListOf st.messages).getLast? = none →
         req.options = emptyConv) := by
  have hpe : st.prompt ≠ "" := fun h => hp (by rw [h]; rfl)
  have h1 : (st.prompt == "") = false := beq_eq_false_iff_ne.mpr hpe
  have h2 : (jsTrim st.prompt == "") = false := beq_eq_false_iff_ne.mpr hp
  rw [onConversationStart_eq now st hl h1 h2]
  refine ⟨{ prompt := st.prompt, options := optionsChosen now st
            signalGen := st.controllerGen + 1 }, rfl, ?_, ?_, ?_⟩
  · intro m ctx hu hlast hctx
    show optionsChosen now st = ctx
    unfold optionsChosen
    rw [lastContextOf_addChat_inversion _ _ rfl]
    unfold lastContextOf
    rw [hlast]
    simp [hctx, hu]
  · intro hu
    show optionsChosen now st = emptyConv
    unfold optionsChosen
    cases lastContextOf (addChat st.messages (userRecOf now st)) with
    | none => rfl
    | some ctx => rw [hu]; rfl
  · intro hnone
    show optionsChosen now st = emptyConv
    unfold optionsChosen
    rw [lastContextOf_addChat_inversion _ _ rfl]
    unfold lastContextOf
    rw [hnone]

/-- A response record carrying continuation metadata, for the C10
witness. -/
def ctxMsg : ChatMessage :=
  { dateTime := "d0", text := "resp", inversion := false, error := false
    loading := false
    conversationOptions :=
      some { conversationId := some "c9", parentMessageId := some "m9" }
    requestOptions := { prompt := "p", options := none } }

/-- An idle state whose transcript ends with a context-carrying response. -/
def stateCtx : ChatState :=
  { messages := [ctxMsg], prompt := "hi", loading := false, controllerGen := 0
    usingContext := true }

/-- Witness for C10: with the toggle on, the issued request copies the last
response's conversationOptions. -/
theorem c10_witness :
    stateCtx.loading = false ∧ jsTrim stateCtx.prompt ≠ "" ∧
    ∃ req, (onConversationStart "t1" stateCtx).2 = some req ∧
      req.options = { conversationId := some "c9"
                      parentMessageId := some "m9" } := by
  obtain ⟨req, hr, hc, _, _⟩ :=
    c10_context_options "t1" stateCtx rfl (by decide)
  exact ⟨rfl, by decide, req, hr, hc ctxMsg _ rfl rfl rfl⟩

end GptChat
